import Mathlib

/-!
Shallow embedding of the radiology exam-registry application (`app.py`).

The application persists everything in flat JSON files; records are Python
dicts.  We model JSON values by `JVal` (numbers as rationals, which cover the
ints and floats Python's `json` module produces), dicts by association lists
with Python `dict` semantics (`dget`, `dupdate`), and each repository
operation as a pure function from the stored list of records to the new list
plus the returned flag, exactly following the code of `app.py`.
-/

namespace Radiolog

/-- JSON values as produced by Python's `json.load`.  Numbers are modelled by
rationals, covering both ints and floats. -/
inductive JVal : Type where
  | jnull : JVal
  | jbool : Bool → JVal
  | jnum : ℚ → JVal
  | jstr : String → JVal
  | jarr : List JVal → JVal
  | jobj : List (String × JVal) → JVal
  deriving Repr

namespace JVal

/-- Boolean equality on `JVal` (hand-written: `deriving DecidableEq` does not
support nested inductives on this toolchain). -/
def beq : JVal → JVal → Bool
  | .jnull, .jnull => true
  | .jbool a, .jbool b => a == b
  | .jnum a, .jnum b => a == b
  | .jstr a, .jstr b => a == b
  | .jarr a, .jarr b => beqArr a b
  | .jobj a, .jobj b => beqObj a b
  | _, _ => false
where
  beqArr : List JVal → List JVal → Bool
    | [], [] => true
    | x :: xs, y :: ys => beq x y && beqArr xs ys
    | _, _ => false
  beqObj : List (String × JVal) → List (String × JVal) → Bool
    | [], [] => true
    | (k, x) :: xs, (l, y) :: ys => k == l && beq x y && beqObj xs ys
    | _, _ => false

theorem eq_of_beq : ∀ {a b : JVal}, beq a b = true → a = b
  | .jnull, .jnull, _ => rfl
  | .jbool a, .jbool b, h => by simpa [beq] using h
  | .jnum a, .jnum b, h => by simp [beq] at h; simp [h]
  | .jstr a, .jstr b, h => by simp [beq] at h; simp [h]
  | .jarr a, .jarr b, h => by
      simp only [beq] at h
      exact congrArg JVal.jarr (eqArr h)
  | .jobj a, .jobj b, h => by
      simp only [beq] at h
      exact congrArg JVal.jobj (eqObj h)
where
  eqArr : ∀ {xs ys : List JVal}, beq.beqArr xs ys = true → xs = ys
    | [], [], _ => rfl
    | x :: xs, y :: ys, h => by
        simp only [beq.beqArr, Bool.and_eq_true] at h
        rw [eq_of_beq h.1, eqArr h.2]
  eqObj : ∀ {xs ys : List (String × JVal)}, beq.beqObj xs ys = true → xs = ys
    | [], [], _ => rfl
    | (k, x) :: xs, (l, y) :: ys, h => by
        simp only [beq.beqObj, Bool.and_eq_true] at h
        obtain ⟨⟨h1, h2⟩, h3⟩ := h
        rw [eq_of_beq h2, eqObj h3, show k = l from by simpa using h1]

theorem beq_refl : ∀ a : JVal, beq a a = true
  | .jnull => rfl
  | .jbool a => by simp [beq]
  | .jnum a => by simp [beq]
  | .jstr a => by simp [beq]
  | .jarr a => by simp only [beq]; exact reflArr a
  | .jobj a => by simp only [beq]; exact reflObj a
where
  reflArr : ∀ xs : List JVal, beq.beqArr xs xs = true
    | [] => rfl
    | x :: xs => by simp only [beq.beqArr, Bool.and_eq_true]; exact ⟨beq_refl x, reflArr xs⟩
  reflObj : ∀ xs : List (String × JVal), beq.beqObj xs xs = true
    | [] => rfl
    | (k, x) :: xs => by
        simp only [beq.beqObj, Bool.and_eq_true]
        exact ⟨⟨by simp, beq_refl x⟩, reflObj xs⟩

instance : DecidableEq JVal := fun a b =>
  if h : beq a b = true then .isTrue (eq_of_beq h)
  else .isFalse (fun he => h (he ▸ beq_refl a))

end JVal

/-- A Python dict with string keys, as an association list (insertion order,
unique keys). -/
abbrev Dict := List (String × JVal)

/-- `d.get(k)` on a Python dict: the value at key `k`, if present. -/
def dget (d : Dict) (k : String) : Option JVal :=
  (d.find? (fun kv => kv.1 = k)).map (·.2)

/-- One entry of `d` after `d.update(f)`: its value is replaced when `f`
binds the same key. -/
def updEntry (f : Dict) (kv : String × JVal) : String × JVal :=
  match dget f kv.1 with
  | some v => (kv.1, v)
  | none => kv

/-- `d.update(f)` on Python dicts: values of keys present in `f` are replaced
in place, keys of `f` not yet in `d` are appended in order. -/
def dupdate (d f : Dict) : Dict :=
  d.map (updEntry f) ++ f.filter (fun kv => (dget d kv.1).isNone)

theorem updEntry_fst (f : Dict) (kv : String × JVal) : (updEntry f kv).1 = kv.1 := by
  unfold updEntry; cases dget f kv.1 <;> rfl

theorem updEntry_snd (f : Dict) (kv : String × JVal) :
    (updEntry f kv).2 = (dget f kv.1).getD kv.2 := by
  unfold updEntry; cases dget f kv.1 <;> rfl

theorem dget_cons (kv : String × JVal) (rest : Dict) (k : String) :
    dget (kv :: rest) k = if kv.1 = k then some kv.2 else dget rest k := by
  by_cases hk : kv.1 = k <;> simp [dget, List.find?, hk]

theorem dget_append (a b : Dict) (k : String) :
    dget (a ++ b) k = (dget a k).or (dget b k) := by
  simp only [dget, List.find?_append]
  cases a.find? (fun kv => kv.1 = k) <;> simp

theorem dget_map_upd (d f : Dict) (k : String) :
    dget (d.map (updEntry f)) k
    = match dget d k with
      | some v => some ((dget f k).getD v)
      | none => none := by
  induction d with
  | nil => simp [dget]
  | cons kv rest ih =>
      rw [List.map_cons, dget_cons, dget_cons, updEntry_fst]
      by_cases hk : kv.1 = k
      · rw [if_pos hk, if_pos hk, updEntry_snd, hk]
      · rw [if_neg hk, if_neg hk, ih]

theorem find_filter_key (f : Dict) (q : String × JVal → Bool) (k : String)
    (hq : ∀ kv ∈ f, kv.1 = k → q kv = true) :
    (f.filter q).find? (fun kv => kv.1 = k) = f.find? (fun kv => kv.1 = k) := by
  induction f with
  | nil => simp
  | cons kv rest ih =>
      have ih' := ih (fun x hx => hq x (List.mem_cons_of_mem _ hx))
      by_cases hk : kv.1 = k
      · have : q kv = true := hq kv (List.mem_cons_self _ _) hk
        simp [List.filter_cons, this, List.find?, hk]
      · by_cases hqkv : q kv = true
        · simp [List.filter_cons, hqkv, List.find?, hk, ih']
        · simp only [List.filter_cons, Bool.not_eq_true] at hqkv ⊢
          simp [hqkv, List.find?, hk, ih']

theorem dget_filter_key (f : Dict) (q : String × JVal → Bool) (k : String)
    (hq : ∀ kv ∈ f, kv.1 = k → q kv = true) :
    dget (f.filter q) k = dget f k := by
  unfold dget
  rw [find_filter_key f q k hq]

/-- The key fact about Python `d.update(f)`: looking up `k` afterwards gives
the value from `f` when present, else the value from `d`. -/
theorem dget_dupdate (d f : Dict) (k : String) :
    dget (dupdate d f) k = (dget f k).or (dget d k) := by
  unfold dupdate
  rw [dget_append, dget_map_upd]
  cases hd : dget d k with
  | some v =>
      cases hf : dget f k with
      | some w => simp
      | none => simp
  | none =>
      rw [dget_filter_key f _ k (fun kv _ hkv => by rw [hkv, hd]; rfl)]
      cases dget f k <;> simp

/-- `max(l or [0])` in Python, for a list of numbers. -/
def pymax0 : List ℚ → ℚ
  | [] => 0
  | a :: r => r.foldl max a

/-- `e.get("id", 0)` coerced to a number: the id of a record, with a missing
id counting as `0` (non-numeric ids would crash Python's `max` and are kept
out by the `numIds` hypothesis where it matters). -/
def idD0 (e : Dict) : ℚ :=
  match dget e "id" with
  | some (.jnum n) => n
  | _ => 0

/-- The raw id value of a record (`e.get("id")`). -/
def recId (e : Dict) : Option JVal := dget e "id"

/-- A record's id is either absent or a number (the shape of files this
application itself writes). -/
def numIdRec (e : Dict) : Bool :=
  match recId e with
  | none => true
  | some (.jnum _) => true
  | _ => false

/-- Every record's id is either absent or a number. -/
def numIds (data : List Dict) : Prop :=
  ∀ e ∈ data, numIdRec e = true

instance : DecidablePred numIds := fun data => List.decidableBAll _ data

/-- The fresh id chosen by every `add_*` repository function:
`max([e.get("id",0) for e in data] or [0]) + 1`. -/
def nextId (data : List Dict) : ℚ :=
  pymax0 (data.map idD0) + 1

/-- Common body of `add_exam` / `add_user` / `add_doctor` / `add_exam_type` /
`add_material`: compute the next id, set it on the record, append, save.
Returns the new file and the new id. -/
def addRec (data : List Dict) (rec : Dict) : List Dict × ℚ :=
  let nxt := nextId data
  (data ++ [dupdate rec [("id", .jnum nxt)]], nxt)

/-- `add_exam` from `app.py` (same body as the other `add_*` functions). -/
def add_exam (data : List Dict) (rec : Dict) : List Dict × ℚ := addRec data rec

/-- Result of a repository write operation: the stored file afterwards,
whether a write actually happened, and the returned boolean. -/
structure WriteResult where
  file : List Dict
  wrote : Bool
  ret : Bool
  deriving DecidableEq, Repr

/-- `e.get("id") == i` for a numeric target `i`, as the Python comparison
evaluates (a missing or non-numeric id compares unequal). -/
def idMatches (i : ℚ) (e : Dict) : Bool := recId e == some (.jnum i)

/-- The loop of `update_exam`: walk the list, merge `fields` into the first
record whose `id` equals the target, stop there. -/
def updateFirst (i : ℚ) (fields : Dict) : List Dict → List Dict × Bool
  | [] => ([], false)
  | e :: rest =>
    if idMatches i e then (dupdate e fields :: rest, true)
    else
      let r := updateFirst i fields rest
      (e :: r.1, r.2)

/-- `update_exam(exam_id, fields)` from `app.py`: merge `fields` into the
first record with the given id; write back only when a record changed. -/
def update_exam (data : List Dict) (i : ℚ) (fields : Dict) : WriteResult :=
  let r := updateFirst i fields data
  { file := r.1, wrote := r.2, ret := r.2 }

/-- `delete_exam(exam_id)` from `app.py`: keep the records whose id differs
from the target; write back only when the length changed. -/
def delete_exam (data : List Dict) (i : ℚ) : WriteResult :=
  let d := data.filter (fun e => ! idMatches i e)
  if d.length ≠ data.length then { file := d, wrote := true, ret := true }
  else { file := data, wrote := false, ret := false }

/-- `log_action` from `app.py`: append one audit entry whose id is
`max([l.get("id",0) for l in logs] or [0]) + 1`.  Returns the new log file
and the new id. -/
def log_action (logs : List Dict) (user_email : Option String)
    (action entity : String) (entity_id : ℚ) (before after : JVal)
    (now : String) : List Dict × ℚ :=
  let nxt := pymax0 (logs.map idD0) + 1
  let entry : Dict :=
    [("id", .jnum nxt), ("ts", .jstr now),
     ("user", .jstr (user_email.getD "desconhecido")),
     ("action", .jstr action), ("entity", .jstr entity),
     ("entity_id", .jnum entity_id), ("before", before), ("after", after)]
  (logs ++ [entry], nxt)

/-- One repository operation on a single data file, as offered by the
`add_*` / `update_*` / `delete_*` function families of `app.py`. -/
inductive Op : Type where
  | add : Dict → Op
  | upd : ℚ → Dict → Op
  | del : ℚ → Op
  deriving Repr

/-- The update operations of `app.py` are only ever called with a `fields`
dict that does not contain the key `"id"` (checked against every call site:
`save_edit`, `save_user_edit`, `save_doctor_edit`, `save_exam_type_edit`,
`save_material_edit`). -/
def opNoId : Op → Bool
  | .upd _ fields => (dget fields "id").isNone
  | _ => true

/-- The stored file after one repository operation. -/
def step (data : List Dict) : Op → List Dict
  | .add rec => (addRec data rec).1
  | .upd i fields => (update_exam data i fields).file
  | .del i => (delete_exam data i).file

/-- The stored file after a sequence of repository operations. -/
def run (data : List Dict) : List Op → List Dict
  | [] => data
  | op :: ops => run (step data op) ops

/-- What the state of a JSON data file on disk can look like to `read_json`:
absent, present but not valid JSON, unreadable for any other reason, or
present with parsed contents `v`. -/
inductive FileState (α : Type) : Type where
  | missing : FileState α
  | jsonError : FileState α
  | readError : FileState α
  | ok : α → FileState α
  deriving DecidableEq, Repr

/-- `read_json(path, default)` from `app.py`: the parsed contents when the
file exists and parses; the supplied default on a missing file, on a
`json.JSONDecodeError` and on any other exception. -/
def read_json {α : Type} (fs : FileState α) (default : α) : α :=
  match fs with
  | .ok v => v
  | _ => default

theorem updateFirst_spec (i : ℚ) (fields : Dict) :
    ∀ data : List Dict,
      ((updateFirst i fields data).2 = true ↔ ∃ e ∈ data, idMatches i e = true) ∧
      ((updateFirst i fields data).2 = false → (updateFirst i fields data).1 = data) ∧
      ((updateFirst i fields data).2 = true →
        ∃ n : ℕ, ∃ h : n < data.length,
          idMatches i (data.get ⟨n, h⟩) = true ∧
          (∀ m : ℕ, ∀ hm : m < data.length, m < n → idMatches i (data.get ⟨m, hm⟩) = false) ∧
          (updateFirst i fields data).1 = data.set n (dupdate (data.get ⟨n, h⟩) fields))
  | [] => by simp [updateFirst]
  | e :: rest => by
      by_cases he : idMatches i e
      · refine ⟨by simp [updateFirst, he], by simp [updateFirst, he], ?_⟩
        intro _
        exact ⟨0, by simp, by simpa using he, by omega, by simp [updateFirst, he]⟩
      · have ih := updateFirst_spec i fields rest
        have hstep : updateFirst i fields (e :: rest)
            = (e :: (updateFirst i fields rest).1, (updateFirst i fields rest).2) := by
          simp [updateFirst, he]
        refine ⟨?_, ?_, ?_⟩
        · rw [hstep]
          simp only [List.mem_cons]
          constructor
          · intro h
            obtain ⟨x, hx, hmx⟩ := ih.1.mp h
            exact ⟨x, Or.inr hx, hmx⟩
          · rintro ⟨x, hx | hx, hmx⟩
            · exact absurd hmx (by simpa [hx] using he)
            · exact ih.1.mpr ⟨x, hx, hmx⟩
        · intro h
          rw [hstep] at h ⊢
          simpa using ih.2.1 (by simpa using h)
        · intro h
          rw [hstep] at h
          obtain ⟨n, hn, hmatch, hfirst, hfile⟩ := ih.2.2 (by simpa using h)
          refine ⟨n + 1, by simpa using Nat.succ_lt_succ hn, by simpa using hmatch, ?_, ?_⟩
          · intro m hm hmn
            match m with
            | 0 => simpa using he
            | m' + 1 =>
                have := hfirst m' (by omega) (by omega)
                simpa using this
          · rw [hstep]
            simp [hfile]

theorem delete_exam_spec (data : List Dict) (i : ℚ) :
    ((delete_exam data i).ret = true ↔ ∃ e ∈ data, idMatches i e = true) ∧
    ((delete_exam data i).ret = false →
      (delete_exam data i).file = data ∧ (delete_exam data i).wrote = false) ∧
    ((delete_exam data i).ret = true → (delete_exam data i).wrote = true ∧
      (delete_exam data i).file = data.filter (fun e => ! idMatches i e)) := by
  by_cases h : (data.filter (fun e => ! idMatches i e)).length ≠ data.length
  · have hret : delete_exam data i
        = { file := data.filter (fun e => ! idMatches i e), wrote := true, ret := true } := by
      simp [delete_exam, h]
    refine ⟨?_, by simp [hret], by simp [hret]⟩
    rw [hret]
    simp only [true_iff]
    have hlt : (data.filter (fun e => ! idMatches i e)).length < data.length :=
      lt_of_le_of_ne (List.length_filter_le _ _) h
    have := List.length_filter_lt_length_iff_exists (p := fun e => ! idMatches i e) (l := data)
    rw [this] at hlt
    obtain ⟨x, hx, hmx⟩ := hlt
    exact ⟨x, hx, by simpa using hmx⟩
  · push_neg at h
    have hall : ∀ e ∈ data, (! idMatches i e) = true := by
      rw [← List.filter_length_eq_length]
      exact h
    have hret : delete_exam data i = { file := data, wrote := false, ret := false } := by
      simp [delete_exam, h]
    refine ⟨?_, by simp [hret], by simp [hret]⟩
    rw [hret]
    simp only [Bool.false_eq_true, false_iff]
    rintro ⟨x, hx, hmx⟩
    have := hall x hx
    simp [hmx] at this

/-- C3: `update_exam(id, fields)` returns `True` exactly when some stored
record has the given id; in that case the file is rewritten with the first
matching record replaced by itself merged with `fields` while every other
record and the order are untouched; when no record matches it returns
`False` and performs no write.  `delete_exam(id)` returns `True` exactly when
some record matches, rewrites the file keeping precisely the non-matching
records in order, and performs no write otherwise. -/
theorem update_exam_delete_exam_frame (data : List Dict) (i : ℚ) (fields : Dict) :
    (((update_exam data i fields).ret = true ↔ ∃ e ∈ data, idMatches i e = true) ∧
     ((update_exam data i fields).ret = false →
       (update_exam data i fields).file = data ∧ (update_exam data i fields).wrote = false) ∧
     ((update_exam data i fields).ret = true →
       (update_exam data i fields).wrote = true ∧
       ∃ n : ℕ, ∃ h : n < data.length,
         idMatches i (data.get ⟨n, h⟩) = true ∧
         (∀ m : ℕ, ∀ hm : m < data.length, m < n → idMatches i (data.get ⟨m, hm⟩) = false) ∧
         (update_exam data i fields).file = data.set n (dupdate (data.get ⟨n, h⟩) fields)))
    ∧
    (((delete_exam data i).ret = true ↔ ∃ e ∈ data, idMatches i e = true) ∧
     ((delete_exam data i).ret = false →
       (delete_exam data i).file = data ∧ (delete_exam data i).wrote = false) ∧
     ((delete_exam data i).ret = true → (delete_exam data i).wrote = true ∧
       (delete_exam data i).file = data.filter (fun e => ! idMatches i e))) := by
  have hu := updateFirst_spec i fields data
  refine ⟨⟨hu.1, ?_, ?_⟩, delete_exam_spec data i⟩
  · intro h
    exact ⟨hu.2.1 h, h⟩
  · intro h
    exact ⟨h, hu.2.2 h⟩

/-- Witness for C3 at a concrete two-record file: id 2 is found and updated,
id 3 is absent so the delete leaves the file unchanged. -/
theorem update_exam_delete_exam_frame_witness :
    (update_exam
        [[("id", JVal.jnum 1), ("x", JVal.jstr "a")], [("id", JVal.jnum 2), ("x", JVal.jstr "b")]]
        2 [("x", JVal.jstr "c")]).ret = true ∧
    (delete_exam
        [[("id", JVal.jnum 1), ("x", JVal.jstr "a")], [("id", JVal.jnum 2), ("x", JVal.jstr "b")]]
        3).file
      = [[("id", JVal.jnum 1), ("x", JVal.jstr "a")], [("id", JVal.jnum 2), ("x", JVal.jstr "b")]] := by
  have h1 := update_exam_delete_exam_frame
    [[("id", JVal.jnum 1), ("x", JVal.jstr "a")], [("id", JVal.jnum 2), ("x", JVal.jstr "b")]]
    2 [("x", JVal.jstr "c")]
  have h2 := update_exam_delete_exam_frame
    [[("id", JVal.jnum 1), ("x", JVal.jstr "a")], [("id", JVal.jnum 2), ("x", JVal.jstr "b")]]
    3 [("x", JVal.jstr "c")]
  refine ⟨h1.1.1.mpr ⟨[("id", JVal.jnum 2), ("x", JVal.jstr "b")], by decide, by decide⟩, ?_⟩
  exact (h2.2.2.1 (by decide)).1

/-- C8: `read_json` is total: it returns the supplied default when the file
is missing, when its contents fail to parse as JSON, and on any other read
error, and returns the parsed contents exactly when the file exists and
parses. -/
theorem read_json_total {α : Type} (fs : FileState α) (default : α) :
    (fs = .missing ∨ fs = .jsonError ∨ fs = .readError → read_json fs default = default) ∧
    (∀ v : α, fs = .ok v → read_json fs default = v) ∧
    (read_json fs default = default ∨ ∃ v : α, fs = .ok v ∧ read_json fs default = v) := by
  cases fs <;> simp [read_json]

/-- Witness for C8: a missing file yields the default, a parsed file yields
its contents. -/
theorem read_json_total_witness :
    read_json (FileState.missing : FileState ℕ) 7 = 7 ∧
    read_json (FileState.ok 5 : FileState ℕ) 7 = 5 := by
  exact ⟨(read_json_total .missing 7).1 (Or.inl rfl),
         (read_json_total (.ok 5) 7).2.1 5 rfl⟩

theorem le_foldl_max : ∀ (r : List ℚ) (a x : ℚ), x ∈ a :: r → x ≤ r.foldl max a
  | [], a, x, h => by simp at h; simp [List.foldl, h]
  | b :: r, a, x, h => by
      rcases List.mem_cons.mp h with rfl | h
      · calc x ≤ max x b := le_max_left _ _
          _ ≤ r.foldl max (max x b) := le_foldl_max r (max x b) (max x b) (List.mem_cons_self _ _)
          _ = (b :: r).foldl max x := by simp [List.foldl]
      · rcases List.mem_cons.mp h with rfl | h
        · calc x ≤ max a x := le_max_right _ _
            _ ≤ r.foldl max (max a x) := le_foldl_max r (max a x) (max a x) (List.mem_cons_self _ _)
            _ = (x :: r).foldl max a := by simp [List.foldl]
        · exact le_of_eq (by simp [List.foldl]) |>.trans
            (le_foldl_max r (max a b) x (List.mem_cons_of_mem _ h))

theorem le_pymax0 (l : List ℚ) (x : ℚ) (h : x ∈ l) : x ≤ pymax0 l := by
  cases l with
  | nil => simp at h
  | cons a r => exact le_foldl_max r a x h

theorem idD0_lt_nextId (data : List Dict) (e : Dict) (he : e ∈ data) :
    idD0 e < nextId data := by
  have : idD0 e ≤ pymax0 (data.map idD0) :=
    le_pymax0 _ _ (List.mem_map_of_mem idD0 he)
  unfold nextId
  linarith

theorem recId_dupdate_of_noId (e fields : Dict) (h : dget fields "id" = none) :
    recId (dupdate e fields) = recId e := by
  simp [recId, dget_dupdate, h]

theorem recId_addRec_new (rec : Dict) (n : ℚ) :
    recId (dupdate rec [("id", JVal.jnum n)]) = some (JVal.jnum n) := by
  rw [recId, dget_dupdate]
  simp [dget, List.find?]

theorem numIdRec_of_recId_eq (e₁ e₂ : Dict) (h : recId e₁ = recId e₂) :
    numIdRec e₁ = numIdRec e₂ := by
  unfold numIdRec
  rw [h]

theorem numIds_of_map_recId_eq (l₁ l₂ : List Dict)
    (h : l₁.map recId = l₂.map recId) (hl₂ : numIds l₂) : numIds l₁ := by
  intro e he
  have : recId e ∈ l₂.map recId := h ▸ List.mem_map_of_mem recId he
  obtain ⟨e₂, he₂, heq⟩ := List.mem_map.mp this
  rw [numIdRec_of_recId_eq e e₂ heq.symm]
  exact hl₂ e₂ he₂

theorem updateFirst_map_recId (i : ℚ) (fields : Dict) (hf : dget fields "id" = none) :
    ∀ data : List Dict, (updateFirst i fields data).1.map recId = data.map recId
  | [] => by simp [updateFirst]
  | e :: rest => by
      by_cases he : idMatches i e
      · simp [updateFirst, he, recId_dupdate_of_noId e fields hf]
      · simp [updateFirst, he, updateFirst_map_recId i fields hf rest]

/-- The id-uniqueness invariant is preserved by a single repository
operation (update operations carrying no `"id"` field). -/
theorem step_invariant (data : List Dict) (op : Op)
    (hnum : numIds data) (hnodup : (data.map recId).Nodup) (hop : opNoId op = true) :
    numIds (step data op) ∧ ((step data op).map recId).Nodup := by
  cases op with
  | add rec =>
      have hfresh : some (JVal.jnum (nextId data)) ∉ data.map recId := by
        intro hmem
        obtain ⟨e, he, heq⟩ := List.mem_map.mp hmem
        have hlt := idD0_lt_nextId data e he
        have : idD0 e = nextId data := by rw [idD0, recId] at *; rw [heq]
        linarith
      constructor
      · intro e he
        rcases (by simpa [step, addRec] using he :
            e ∈ data ∨ e = dupdate rec [("id", JVal.jnum (nextId data))]) with h | h
        · exact hnum e h
        · have : e = dupdate rec [("id", JVal.jnum (nextId data))] := by simpa using h
          rw [this, numIdRec, recId_addRec_new]
      · have : (step data (.add rec)).map recId
            = data.map recId ++ [some (JVal.jnum (nextId data))] := by
          simp [step, addRec, recId_addRec_new]
        rw [this, List.nodup_append]
        exact ⟨hnodup, List.nodup_singleton _, by simpa using hfresh⟩
  | upd i fields =>
      have hf : dget fields "id" = none := by
        simpa [opNoId, Option.isNone_iff_eq_none] using hop
      have hmap : (step data (.upd i fields)).map recId = data.map recId := by
        simpa [step, update_exam] using updateFirst_map_recId i fields hf data
      exact ⟨numIds_of_map_recId_eq _ data hmap hnum, hmap ▸ hnodup⟩
  | del i =>
      by_cases h : ((data.filter (fun e => ! idMatches i e)).length ≠ data.length)
      · have hfile : step data (.del i) = data.filter (fun e => ! idMatches i e) := by
          simp [step, delete_exam, h]
        rw [hfile]
        constructor
        · intro e he
          exact hnum e (List.mem_of_mem_filter he)
        · exact hnodup.sublist ((List.filter_sublist data).map recId)
      · have hfile : step data (.del i) = data := by
          simp [step, delete_exam, h]
        rw [hfile]
        exact ⟨hnum, hnodup⟩

theorem run_invariant : ∀ (ops : List Op) (data : List Dict),
    numIds data → (data.map recId).Nodup → (∀ op ∈ ops, opNoId op = true) →
    numIds (run data ops) ∧ ((run data ops).map recId).Nodup
  | [], data, hnum, hnodup, _ => ⟨hnum, hnodup⟩
  | op :: ops, data, hnum, hnodup, hops => by
      have h1 := step_invariant data op hnum hnodup (hops op (List.mem_cons_self _ _))
      exact run_invariant ops (step data op) h1.1 h1.2
        (fun o ho => hops o (List.mem_cons_of_mem _ ho))

/-- C9: every `add_*` operation (and `log_action`) assigns the new record
the id `max` of existing ids plus one, strictly greater than every id in the
file; and starting from a file with pairwise-distinct ids, any sequence of
add, update (with fields not touching `"id"`) and delete operations keeps
the ids pairwise distinct. -/
theorem add_fresh_id_and_unique_ids (data : List Dict) (rec : Dict) (ops : List Op)
    (ue : Option String) (action entity : String) (eid : ℚ)
    (before after : JVal) (now : String)
    (hnum : numIds data) (hnodup : (data.map recId).Nodup)
    (hops : ∀ op ∈ ops, opNoId op = true) :
    ((addRec data rec).2 = pymax0 (data.map idD0) + 1) ∧
    (∀ e ∈ data, idD0 e < (addRec data rec).2) ∧
    (∀ e ∈ data, idD0 e < (log_action data ue action entity eid before after now).2) ∧
    numIds (run data ops) ∧ ((run data ops).map recId).Nodup := by
  refine ⟨rfl, ?_, ?_, ?_, ?_⟩
  · intro e he
    exact idD0_lt_nextId data e he
  · intro e he
    exact idD0_lt_nextId data e he
  · exact (run_invariant ops data hnum hnodup hops).1
  · exact (run_invariant ops data hnum hnodup hops).2

/-- Witness for C9 at a concrete two-record file and a three-operation
sequence (add, update without id, delete). -/
theorem add_fresh_id_and_unique_ids_witness :
    (∀ e ∈ [[("id", JVal.jnum 1)], [("id", JVal.jnum 2)]],
      idD0 e < (addRec [[("id", JVal.jnum 1)], [("id", JVal.jnum 2)]] [("n", JVal.jstr "x")]).2) ∧
    ((run [[("id", JVal.jnum 1)], [("id", JVal.jnum 2)]]
        [.add [("n", JVal.jstr "x")], .upd 1 [("n", JVal.jstr "y")], .del 2]).map recId).Nodup := by
  have h := add_fresh_id_and_unique_ids
    [[("id", JVal.jnum 1)], [("id", JVal.jnum 2)]] [("n", JVal.jstr "x")]
    [.add [("n", JVal.jstr "x")], .upd 1 [("n", JVal.jstr "y")], .del 2]
    none "create" "exam" 1 JVal.jnull JVal.jnull "t"
    (by decide) (by decide) (by decide)
  exact ⟨h.2.1, h.2.2.2.2⟩

/-! ## C1: per-file locks

The seven JSON data files, in the order users, exams, doctors, exam_types,
logs, settings, materials, are indexed by `Fin 7`; the code pairs each file
with exactly one dedicated `threading.Lock` (`_users_lock`, ...), so the
lock dedicated to file `f` is also indexed `f`.  Each helper is modelled by
the sequence of lock and file-access events it performs. -/

/-- Lock/file events: acquiring or releasing the lock dedicated to a file,
and reading-or-writing the file itself. -/
inductive Ev : Type where
  | acquire : Fin 7 → Ev
  | release : Fin 7 → Ev
  | access : Fin 7 → Ev
  deriving DecidableEq, Repr

/-- `write_json(path, data, lock)`: inside `with lock` it writes a temp file
and then `os.replace`s it over the data file (the one access to the file). -/
def write_json_events (f : Fin 7) : List Ev := [.acquire f, .access f, .release f]

/-- `read_json(path, default)`: opens and reads the data file without
touching any lock. -/
def read_json_events (f : Fin 7) : List Ev := [.access f]

/-- Does every file access in the trace happen while the lock dedicated to
that file is held? -/
def guardedFrom (held : List (Fin 7)) : List Ev → Bool
  | [] => true
  | .acquire f :: r => guardedFrom (f :: held) r
  | .release f :: r => guardedFrom (held.erase f) r
  | .access f :: r => held.contains f && guardedFrom held r

/-- Event traces of the repository helpers of `app.py`: `get_users` /
`save_users` (file 0), `list_exams` / `save_exams` (file 1), `list_doctors`
/ `save_doctors` (2), `list_exam_types` / `save_exam_types` (3), `list_logs`
/ `save_logs` (4), `read_settings` / `write_settings` (5, where
`write_settings` first calls `read_settings` and then `write_json`), and
`list_materials` / `save_materials` (6). -/
def repoTraces : List (List Ev) :=
  [read_json_events 0, write_json_events 0,
   read_json_events 1, write_json_events 1,
   read_json_events 2, write_json_events 2,
   read_json_events 3, write_json_events 3,
   read_json_events 4, write_json_events 4,
   read_json_events 5, read_json_events 5 ++ write_json_events 5,
   read_json_events 6, write_json_events 6]

/-- C1 counterexample: it is not the case that every repository operation
accesses its data file only while holding the file's dedicated lock — the
read helpers (`read_json`, hence `list_exams` etc.) take no lock at all. -/
theorem locks_guard_every_access_counterexample :
    ¬ (∀ t ∈ repoTraces, guardedFrom [] t = true) := by decide

/-- C1 (amended): only writes are guarded — `write_json` performs its single
visible update of each data file while holding that file's dedicated lock,
while every read accesses the file holding no lock. -/
theorem write_locked_read_unlocked :
    (∀ f : Fin 7, guardedFrom [] (write_json_events f) = true) ∧
    (∀ f : Fin 7, guardedFrom [] (read_json_events f) = false) := by decide

/-! ## C2: `login_required` session gate -/

/-- The session's `last_active` slot as `login_required` can see it:
missing, present but falsy (empty string), present but not ISO-parseable
(raises `ValueError`), or parsed to a UTC timestamp (microseconds). -/
inductive LastActive : Type where
  | absent : LastActive
  | empty : LastActive
  | bad : String → LastActive
  | good : Int → LastActive
  deriving DecidableEq, Repr

/-- The two session keys `login_required` reads. -/
structure Session where
  user_id : Option ℕ
  last_active : LastActive
  deriving DecidableEq, Repr

/-- Outcome of the `login_required` wrapper: a redirect to the login page
(recording whether `session.clear()` ran) or execution of the view body with
the updated session. -/
inductive AuthOutcome : Type where
  | redirectLogin : Bool → AuthOutcome
  | runView : Session → AuthOutcome
  deriving DecidableEq, Repr

/-- `int(os.getenv("SESSION_TIMEOUT_MIN", "30"))`. -/
def SESSION_TIMEOUT_MIN (env : Option Int) : Int := env.getD 30

/-- Microseconds per minute, the resolution of the modelled timestamps. -/
def microsPerMin : Int := 60000000

/-- The wrapper produced by the `login_required` decorator in `app.py`:
no `user_id` redirects to login; a truthy `last_active` older than
`tmin` minutes clears the session and redirects; an unparseable
`last_active` clears the session and redirects; otherwise `last_active` is
refreshed to now and the view body runs. -/
def login_required (s : Session) (now : Int) (tmin : Int) : AuthOutcome :=
  match s.user_id with
  | none => .redirectLogin false
  | some _ =>
    match s.last_active with
    | .absent => .runView { s with last_active := .good now }
    | .empty => .runView { s with last_active := .good now }
    | .bad _ => .redirectLogin true
    | .good t =>
        if now - t > tmin * microsPerMin then .redirectLogin true
        else .runView { s with last_active := .good now }

/-- The claim's gating condition, as stated: the session holds a `user_id`
and its `last_active` timestamp is no more than `tmin` minutes in the
past. -/
def sessionFreshTimestamp (s : Session) (now tmin : Int) : Bool :=
  match s.last_active with
  | .good t => now - t ≤ tmin * microsPerMin
  | _ => false

/-- C2 counterexample: a session with a `user_id` but no `last_active` key
runs the view body even though the claim's condition (a sufficiently recent
`last_active` timestamp) does not hold, so the two sides of the claimed
"if and only if" differ. -/
theorem login_required_gate_counterexample :
    login_required ⟨some 1, .absent⟩ 0 30
      = .runView ⟨some 1, .good 0⟩ ∧
    ((Session.user_id ⟨some 1, LastActive.absent⟩).isSome = true ∧
      sessionFreshTimestamp ⟨some 1, .absent⟩ 0 30 = false) := by
  exact ⟨rfl, rfl, rfl⟩

/-- C2 (amended): the view body runs iff the session holds a `user_id` and
`last_active` is absent, empty, or a timestamp at most `tmin` minutes old;
every other request is redirected to login, with the session cleared
exactly when a `user_id` was present (expired or unparseable
`last_active`); on success `last_active` is refreshed to the current time;
and the timeout defaults to 30 minutes. -/
theorem login_required_gate (s : Session) (now tmin : Int) :
    ((∃ w, login_required s now tmin = .runView w) ↔
      s.user_id.isSome = true ∧
        (s.last_active = .absent ∨ s.last_active = .empty ∨
          sessionFreshTimestamp s now tmin = true)) ∧
    (∀ w, login_required s now tmin = .runView w →
      w = { s with last_active := .good now }) ∧
    (s.user_id = none → login_required s now tmin = .redirectLogin false) ∧
    (∀ b, login_required s now tmin = .redirectLogin b →
      (b = true ↔ s.user_id.isSome = true)) ∧
    SESSION_TIMEOUT_MIN none = 30 := by
  obtain ⟨uid, la⟩ := s
  cases uid with
  | none => simp [login_required, sessionFreshTimestamp, SESSION_TIMEOUT_MIN]
  | some u =>
      cases la with
      | absent => simp [login_required, sessionFreshTimestamp, SESSION_TIMEOUT_MIN]
      | empty => simp [login_required, sessionFreshTimestamp, SESSION_TIMEOUT_MIN]
      | bad str => simp [login_required, sessionFreshTimestamp, SESSION_TIMEOUT_MIN]
      | good t =>
          by_cases h : now - t > tmin * microsPerMin
          · simp [login_required, sessionFreshTimestamp, h, SESSION_TIMEOUT_MIN]
            omega
          · simp [login_required, sessionFreshTimestamp, h, SESSION_TIMEOUT_MIN]
            omega

/-- Witness for C2 at a fresh session: the view runs and refreshes
`last_active`. -/
theorem login_required_gate_witness :
    login_required ⟨some 1, .good 0⟩ 5 30 = .runView ⟨some 1, .good 5⟩ := by
  have h := login_required_gate ⟨some 1, .good 0⟩ 5 30
  obtain ⟨w, hw⟩ := h.1.mpr ⟨rfl, Or.inr (Or.inr (by decide))⟩
  rw [hw, h.2.1 w hw]

/-! ## C10: settings normalization -/

/-- The keys of the `THEMES` dict of `app.py` (the Bootswatch CDN URLs they
map to play no role in the normalization logic). -/
def THEME_KEYS : List String :=
  ["Flatly", "Lux", "Materia", "Yeti", "Morph", "Quartz", "Cyborg (escuro)"]

/-- `DEFAULT_SETTINGS` from `app.py`. -/
def DEFAULT_SETTINGS : Dict :=
  [("portal_name", .jstr "Portal Radiológico"), ("theme", .jstr "Flatly"),
   ("logo_file", .jnull), ("logo_height_px", .jnum 40)]

/-- Python dict item assignment `d[k] = v` (equal to updating with the
singleton dict). -/
def dset (d : Dict) (k : String) (v : JVal) : Dict := dupdate d [(k, v)]

/-- `s.get("theme") in THEMES`: the stored theme value is one of the keys of
the `THEMES` dict (a missing or non-string value is not a key). -/
def themeValid (d : Dict) : Bool :=
  match dget d "theme" with
  | some (.jstr t) => THEME_KEYS.contains t
  | _ => false

/-- `read_settings()` from `app.py`: read the settings file with
`DEFAULT_SETTINGS` as default, force an unknown theme to `"Flatly"`, add a
missing `logo_height_px`.  When the file parses to a non-dict JSON value the
Python code calls `.get` on it and raises `AttributeError`, modelled by the
error case. -/
def read_settings (fs : FileState JVal) : Except String Dict :=
  match read_json fs (.jobj DEFAULT_SETTINGS) with
  | .jobj d =>
      let d1 := if themeValid d then d else dset d "theme" (.jstr "Flatly")
      let d2 := if (dget d1 "logo_height_px").isSome then d1
                else dset d1 "logo_height_px" (.jnum 40)
      .ok d2
  | _ => .error "AttributeError"

/-- `write_settings(s)` from `app.py`: merge the updates into the result of
`read_settings` and persist (and return) the merged dict. -/
def write_settings (fs : FileState JVal) (upd : Dict) : Except String Dict :=
  match read_settings fs with
  | .ok cur => .ok (dupdate cur upd)
  | .error e => .error e

theorem dget_dset_same (d : Dict) (k : String) (v : JVal) :
    dget (dset d k v) k = some v := by
  rw [dset, dget_dupdate, dget_cons]
  simp

theorem dget_dset_other (d : Dict) (k k' : String) (v : JVal) (h : k ≠ k') :
    dget (dset d k v) k' = dget d k' := by
  rw [dset, dget_dupdate, dget_cons]
  simp [h, dget]

theorem read_settings_obj_spec (d : Dict) :
    ∃ out : Dict, read_settings (.ok (.jobj d)) = .ok out ∧
      themeValid out = true ∧ (dget out "logo_height_px").isSome = true ∧
      (themeValid d = false → dget out "theme" = some (.jstr "Flatly")) := by
  have hset_theme : ∀ d' : Dict, themeValid (dset d' "theme" (.jstr "Flatly")) = true := by
    intro d'
    rw [themeValid, dget_dset_same]
    rfl
  have hset_logo_theme : ∀ d' : Dict,
      themeValid (dset d' "logo_height_px" (.jnum 40)) = themeValid d' := by
    intro d'
    rw [themeValid, themeValid, dget_dset_other _ _ _ _ (by decide)]
  by_cases ht : themeValid d
  · by_cases hl : (dget d "logo_height_px").isSome
    · exact ⟨d, by simp [read_settings, read_json, ht, hl], ht, hl, by simp [ht]⟩
    · refine ⟨dset d "logo_height_px" (.jnum 40),
        by simp [read_settings, read_json, ht, hl], ?_, ?_, by simp [ht]⟩
      · rw [hset_logo_theme]; exact ht
      · rw [dget_dset_same]; rfl
  · have ht' := hset_theme d
    by_cases hl : (dget (dset d "theme" (.jstr "Flatly")) "logo_height_px").isSome
    · refine ⟨dset d "theme" (.jstr "Flatly"),
        by simp [read_settings, read_json, ht, hl], ht', hl, ?_⟩
      intro _
      rw [dget_dset_same]
    · refine ⟨dset (dset d "theme" (.jstr "Flatly")) "logo_height_px" (.jnum 40),
        by simp [read_settings, read_json, ht, hl], ?_, ?_, ?_⟩
      · rw [hset_logo_theme]; exact ht'
      · rw [dget_dset_same]; rfl
      · intro _
        rw [dget_dset_other _ _ _ _ (by decide), dget_dset_same]

/-- C10 counterexample: a settings file holding the valid JSON value `null`
makes `read_settings` raise (`None.get` → `AttributeError`) instead of
returning a normalized settings dict, so the claim does not hold
"regardless of the stored file's contents". -/
theorem read_settings_counterexample :
    read_settings (.ok .jnull) = .error "AttributeError" := rfl

/-- C10 (amended): whenever the settings file is missing, unreadable,
invalid JSON, or holds a JSON object, `read_settings` returns a dict whose
theme is a key of `THEMES` (an unknown or missing theme being replaced by
`"Flatly"`) and which contains `logo_height_px` (defaulted to 40);
`write_settings` merges its updates into that result and the merged dict,
once stored, again reads back normalized. -/
theorem read_settings_normalized (fs : FileState JVal) (g upd r : Dict) :
    (fs = .missing ∨ fs = .jsonError ∨ fs = .readError ∨ fs = .ok (.jobj g) →
      ∃ out : Dict, read_settings fs = .ok out ∧ themeValid out = true ∧
        (dget out "logo_height_px").isSome = true ∧
        (fs = .ok (.jobj g) → themeValid g = false →
          dget out "theme" = some (.jstr "Flatly"))) ∧
    (read_settings fs = .ok r →
      write_settings fs upd = .ok (dupdate r upd) ∧
      ∃ out : Dict, read_settings (.ok (.jobj (dupdate r upd))) = .ok out ∧
        themeValid out = true ∧ (dget out "logo_height_px").isSome = true) := by
  constructor
  · intro hfs
    have hdefault : ∀ fs' : FileState JVal, read_json fs' (JVal.jobj DEFAULT_SETTINGS)
        = .jobj DEFAULT_SETTINGS →
        ∃ out : Dict, read_settings fs' = .ok out ∧ themeValid out = true ∧
          (dget out "logo_height_px").isSome = true := by
      intro fs' h
      obtain ⟨out, h1, h2, h3, _⟩ := read_settings_obj_spec DEFAULT_SETTINGS
      refine ⟨out, ?_, h2, h3⟩
      rw [read_settings, h]
      rw [read_settings, show read_json (FileState.ok (JVal.jobj DEFAULT_SETTINGS))
        (JVal.jobj DEFAULT_SETTINGS) = .jobj DEFAULT_SETTINGS from rfl] at h1
      exact h1
    rcases hfs with rfl | rfl | rfl | rfl
    · obtain ⟨out, h1, h2, h3⟩ := hdefault .missing rfl
      exact ⟨out, h1, h2, h3, by intro h; cases h⟩
    · obtain ⟨out, h1, h2, h3⟩ := hdefault .jsonError rfl
      exact ⟨out, h1, h2, h3, by intro h; cases h⟩
    · obtain ⟨out, h1, h2, h3⟩ := hdefault .readError rfl
      exact ⟨out, h1, h2, h3, by intro h; cases h⟩
    · obtain ⟨out, h1, h2, h3, h4⟩ := read_settings_obj_spec g
      exact ⟨out, h1, h2, h3, fun _ => h4⟩
  · intro hr
    refine ⟨by rw [write_settings, hr], ?_⟩
    obtain ⟨out, h1, h2, h3, _⟩ := read_settings_obj_spec (dupdate r upd)
    exact ⟨out, h1, h2, h3⟩

/-- Witness for C10: a missing settings file reads back normalized, and
writing an update to it yields the merged defaults. -/
theorem read_settings_normalized_witness :
    (∃ out : Dict, read_settings (.missing : FileState JVal) = .ok out ∧
      themeValid out = true ∧ (dget out "logo_height_px").isSome = true) ∧
    write_settings (.missing : FileState JVal) [("portal_name", .jstr "X")]
      = .ok (dupdate DEFAULT_SETTINGS [("portal_name", .jstr "X")]) := by
  have h := read_settings_normalized (.missing : FileState JVal) [] [] DEFAULT_SETTINGS
  obtain ⟨out, h1, h2, h3, _⟩ := h.1 (Or.inl rfl)
  have h' := read_settings_normalized (.missing : FileState JVal) []
    [("portal_name", .jstr "X")] DEFAULT_SETTINGS
  exact ⟨⟨out, h1, h2, h3⟩, (h'.2 (by rfl)).1⟩

/-! ## C7: logo upload decoding

`_save_logo_from_tmp` calls the standard-library `base64.b64decode`; the
decoder is passed in as an oracle `dec` (returning `none` when Python would
raise `binascii.Error`), while the data-URL parsing, header validation and
extension mapping are modelled concretely.  A failing disk write (`IOError`)
is outside the model: the file system write is assumed to succeed. -/

/-- The dict stored in the `cust_logo_tmp` Dash store:
`{"contents": ..., "filename": ...}`. -/
structure TmpData where
  contents : String
  filename : String
  deriving DecidableEq, Repr

/-- Split a character list at the first occurrence of `c`: the part before
and the part after; `none` when `c` does not occur. -/
def splitCharsAtFirst (c : Char) : List Char → Option (List Char × List Char)
  | [] => none
  | x :: xs => if x = c then some ([], xs)
               else match splitCharsAtFirst c xs with
                 | none => none
                 | some (a, b) => some (x :: a, b)

/-- Python `str.split(c)` for a one-character separator. -/
def splitAll (c : Char) : List Char → List (List Char)
  | [] => [[]]
  | x :: xs => if x = c then [] :: splitAll c xs
               else match splitAll c xs with
                 | [] => [[x]]
                 | a :: rest => (x :: a) :: rest

/-- Python `s.startswith(pre)`. -/
def strStartsWith (s pre : String) : Bool := pre.toList.isPrefixOf s.toList

/-- `contents.split(",", 1)`: the part before the first comma and the rest;
`none` when there is no comma (Python then raises `ValueError` while
unpacking, caught by the surrounding `except`). -/
def splitFirstComma (s : String) : Option (String × String) :=
  match splitCharsAtFirst ',' s.toList with
  | none => none
  | some (a, b) => some (⟨a⟩, ⟨b⟩)

/-- `header.split(":")[1].split(";")[0]`: the mime type of the data URL. -/
def mimeOf (header : String) : String :=
  match splitAll ':' header.toList with
  | _ :: m :: _ => ⟨(splitAll ';' m).headD []⟩
  | _ => ""

/-- The extension chosen for each mime type by `_save_logo_from_tmp`
(default `png`, explicit cases for png / jpeg / svg+xml / webp, and `png`
forced for every other image type). -/
def extFor (mime : String) : String :=
  if mime = "image/png" then "png"
  else if mime = "image/jpeg" then "jpg"
  else if mime = "image/svg+xml" then "svg"
  else if mime = "image/webp" then "webp"
  else "png"

/-- Result of `_save_logo_from_tmp`: `None`, or the written file name
together with the decoded bytes written to it. -/
inductive LogoResult : Type where
  | noSave : LogoResult
  | saved : String → List ℕ → LogoResult
  deriving DecidableEq, Repr

/-- `_save_logo_from_tmp(tmpdata)` from `app.py`, with `dec` the
`base64.b64decode` oracle. -/
def save_logo_from_tmp (dec : String → Option (List ℕ))
    (tmpdata : Option TmpData) : LogoResult :=
  match tmpdata with
  | none => .noSave
  | some td =>
    match splitFirstComma td.contents with
    | none => .noSave
    | some (header, b64) =>
        if strStartsWith header "data:image/" = false then .noSave
        else
          match dec b64 with
          | none => .noSave
          | some raw => .saved ("logo." ++ extFor (mimeOf header)) raw

/-- C7: `_save_logo_from_tmp` saves nothing for an empty payload, a data-URL
header that does not start with `data:image/`, or a base64 body that fails
to decode (including a payload with no comma, which has no body at all);
otherwise it writes the decoded bytes to `logo.<ext>` and returns that name,
with ext png / jpg / svg / webp for the four known mime types and png for
every other image mime type. -/
theorem save_logo_cases (dec : String → Option (List ℕ)) :
    (save_logo_from_tmp dec none = .noSave) ∧
    (∀ td : TmpData, td.contents = "" →
      save_logo_from_tmp dec (some td) = .noSave) ∧
    (∀ td : TmpData, splitFirstComma td.contents = none →
      save_logo_from_tmp dec (some td) = .noSave) ∧
    (∀ (td : TmpData) (h b : String), splitFirstComma td.contents = some (h, b) →
      strStartsWith h "data:image/" = false →
      save_logo_from_tmp dec (some td) = .noSave) ∧
    (∀ (td : TmpData) (h b : String), splitFirstComma td.contents = some (h, b) →
      strStartsWith h "data:image/" = true → dec b = none →
      save_logo_from_tmp dec (some td) = .noSave) ∧
    (∀ (td : TmpData) (h b : String) (raw : List ℕ),
      splitFirstComma td.contents = some (h, b) →
      strStartsWith h "data:image/" = true → dec b = some raw →
      save_logo_from_tmp dec (some td)
        = .saved ("logo." ++ extFor (mimeOf h)) raw) ∧
    (extFor "image/png" = "png" ∧ extFor "image/jpeg" = "jpg" ∧
      extFor "image/svg+xml" = "svg" ∧ extFor "image/webp" = "webp") ∧
    (∀ m : String, m ≠ "image/png" → m ≠ "image/jpeg" → m ≠ "image/svg+xml" →
      m ≠ "image/webp" → extFor m = "png") := by
  refine ⟨rfl, ?_, ?_, ?_, ?_, ?_, ⟨rfl, rfl, rfl, rfl⟩, ?_⟩
  · intro td hc
    have h0 : splitFirstComma td.contents = none := by rw [hc]; rfl
    simp [save_logo_from_tmp, h0]
  · intro td hs
    simp [save_logo_from_tmp, hs]
  · intro td h b hs hh
    simp [save_logo_from_tmp, hs, hh]
  · intro td h b hs hh hd
    simp [save_logo_from_tmp, hs, hh, hd]
  · intro td h b raw hs hh hd
    simp [save_logo_from_tmp, hs, hh, hd]
  · intro m h1 h2 h3 h4
    simp [extFor, h1, h2, h3, h4]

/-- Witness for C7: a jpeg data URL whose body decodes saves `logo.jpg`
with the decoded bytes; a non-image payload saves nothing. -/
theorem save_logo_cases_witness :
    save_logo_from_tmp (fun s => if s = "QUJD" then some [65, 66, 67] else none)
      (some ⟨"data:image/jpeg;base64,QUJD", "photo.jpg"⟩)
      = .saved "logo.jpg" [65, 66, 67] ∧
    save_logo_from_tmp (fun s => if s = "QUJD" then some [65, 66, 67] else none)
      (some ⟨"data:text/plain;base64,QUJD", "a.txt"⟩) = .noSave := by
  have h := save_logo_cases (fun s => if s = "QUJD" then some [65, 66, 67] else none)
  constructor
  · have := h.2.2.2.2.2.1 ⟨"data:image/jpeg;base64,QUJD", "photo.jpg"⟩
      "data:image/jpeg;base64" "QUJD" [65, 66, 67] (by decide) (by decide) (by simp)
    simpa using this
  · exact h.2.2.2.1 ⟨"data:text/plain;base64,QUJD", "a.txt"⟩
      "data:text/plain;base64" "QUJD" (by decide) (by decide)

/-! ## C4: `salvar_exame` validation

The raw Dash callback inputs are modelled at the point where the Python
standard library interprets them: `idade` is `none` when `int()` would
raise, the date value records whether `datetime.fromisoformat` succeeds,
and each material quantity records how `validate_positive_float` can see it
(`None`, blank, a non-numeric string, or a number). -/

/-- Python `str.strip()` (ASCII whitespace). -/
def isPySpace (c : Char) : Bool :=
  c = ' ' || c = '\t' || c = '\n' || c = '\r' || c = '\x0b' || c = '\x0c'

/-- Python `(value or "").strip()`. -/
def pystrip (s : String) : String :=
  ⟨((s.toList.dropWhile isPySpace).reverse.dropWhile isPySpace).reverse⟩

/-- `MODALIDADES` from `app.py`. -/
def MODALIDADES : List String := ["RX", "CT", "US", "MR", "MG", "NM"]

/-- `validate_text_input(value, ...)`: strip, fail on empty. -/
def validate_text_input (value : Option String) : Option String :=
  let s := pystrip (value.getD "")
  if s = "" then none else some s

/-- `validate_positive_int(value, _, min, max)`: `int(value)` (failure
modelled by `none`), then range check. -/
def validate_positive_int (value : Option Int) (minv maxv : Int) : Option Int :=
  match value with
  | none => none
  | some v => if v < minv then none else if maxv < v then none else some v

/-- A material quantity as `validate_positive_float` can receive it. -/
inductive QIn : Type where
  | qnone : QIn
  | qblank : QIn
  | qbad : String → QIn
  | qnum : ℚ → QIn
  deriving DecidableEq, Repr

/-- `validate_positive_float(value, _, 0.0)`: `None` and blank strings are
valid and count as `0.0`; a non-numeric string is invalid; a number is valid
iff it is not below `0.0`. -/
def validate_positive_float : QIn → Option ℚ
  | .qnone => some 0
  | .qblank => some 0
  | .qbad _ => none
  | .qnum q => if q < 0 then none else some q

/-- One entry of the `materiais_usados` store:
`{"material_id": ..., "quantidade": ...}`. -/
structure UsedMat where
  material_id : ℚ
  quantidade : QIn
  deriving DecidableEq, Repr

/-- The JSON value persisted for a quantity (quantities are persisted
as-is, not replaced by the validated value). -/
def encodeQ : QIn → JVal
  | .qnone => .jnull
  | .qblank => .jstr ""
  | .qbad s => .jstr s
  | .qnum q => .jnum q

/-- The JSON value persisted for one used material. -/
def encodeMat (m : UsedMat) : JVal :=
  .jobj [("material_id", .jnum m.material_id), ("quantidade", encodeQ m.quantidade)]

/-- The `data_dt` value as `salvar_exame` sees it: falsy, truthy but not
ISO-parseable, or parseable with `dt.isoformat()` equal to `iso`. -/
inductive DTIn : Type where
  | dnone : DTIn
  | dbad : String → DTIn
  | dgood : String → DTIn
  deriving DecidableEq, Repr

/-- The exam record built by `salvar_exame` from the cleaned inputs. -/
def examRec (ue : Option String) (exam_id : String) (idade : Int)
    (modalidade exame medico iso : String) (mats : List UsedMat) : Dict :=
  [("exam_id", .jstr exam_id), ("idade", .jnum (idade : ℚ)),
   ("modalidade", .jstr modalidade), ("exame", .jstr exame),
   ("medico", .jstr medico), ("data_hora", .jstr iso),
   ("user_email", match ue with | some e => .jstr e | none => .jnull),
   ("materiais_usados", .jarr (mats.map encodeMat))]

/-- `salvar_exame` from `app.py`, reduced to its persistence effect: the
session check, the collected field validations, the `fromisoformat` parse,
and on success `add_exam` followed by the cleared form (the Dash alert
components themselves carry no further state).  Returns whether a record
was persisted, together with the exams file afterwards. -/
def salvar_exame (file : List Dict) (logged_in : Bool) (ue : Option String)
    (exam_id : Option String) (idade : Option Int)
    (modalidade exame_txt medico : Option String)
    (data_dt : DTIn) (mats : List UsedMat) : Bool × List Dict :=
  if logged_in = false then (false, file)
  else
    let vExamId := validate_text_input exam_id
    let vIdade := validate_positive_int idade 0 120
    let vMod := validate_text_input modalidade
    let vExame := validate_text_input exame_txt
    let vMedico := validate_text_input medico
    let modErr := match vMod with
      | none => true
      | some m => ! MODALIDADES.contains m
    let dataMissing := match data_dt with
      | .dnone => true
      | _ => false
    let qtyErr := mats.any (fun it => (validate_positive_float it.quantidade).isNone)
    if vExamId.isNone || vIdade.isNone || modErr || vExame.isNone ||
        vMedico.isNone || dataMissing || qtyErr then (false, file)
    else
      match data_dt with
      | .dnone => (false, file)
      | .dbad _ => (false, file)
      | .dgood iso =>
          (true, (add_exam file (examRec ue (vExamId.getD "") (vIdade.getD 0)
            (vMod.getD "") (vExame.getD "") (vMedico.getD "") iso mats)).1)

/-- The claim's validity condition, exactly as stated: the four text fields
non-empty after strip, the modality one of the six `MODALIDADES`, the age an
integer between 0 and 120, the date a parseable ISO datetime, and every
used-material quantity a non-negative number. -/
def claimC4cond (exam_id : Option String) (idade : Option Int)
    (modalidade exame_txt medico : Option String)
    (data_dt : DTIn) (mats : List UsedMat) : Bool :=
  (pystrip (exam_id.getD "") != "") &&
  (pystrip (exame_txt.getD "") != "") &&
  (pystrip (medico.getD "") != "") &&
  MODALIDADES.contains (pystrip (modalidade.getD "")) &&
  (match idade with | some n => decide (0 ≤ n) && decide (n ≤ 120) | none => false) &&
  (match data_dt with | .dgood _ => true | _ => false) &&
  mats.all (fun it => match it.quantidade with
    | .qnum q => decide (0 ≤ q)
    | _ => false)

/-- The validity condition the code actually enforces: as the claim states
it, except that a `None` or blank material quantity also passes (it is
treated as `0.0` by `validate_positive_float`). -/
def codeC4cond (exam_id : Option String) (idade : Option Int)
    (modalidade exame_txt medico : Option String)
    (data_dt : DTIn) (mats : List UsedMat) : Bool :=
  (pystrip (exam_id.getD "") != "") &&
  (pystrip (exame_txt.getD "") != "") &&
  (pystrip (medico.getD "") != "") &&
  MODALIDADES.contains (pystrip (modalidade.getD "")) &&
  (match idade with | some n => decide (0 ≤ n) && decide (n ≤ 120) | none => false) &&
  (match data_dt with | .dgood _ => true | _ => false) &&
  mats.all (fun it => (validate_positive_float it.quantidade).isSome)

/-- C4 counterexample: with every other field valid and one used material
whose quantity is `None`, the code persists the exam although the claim's
condition ("every used-material quantity is a non-negative number") is
false — the claimed "if and only if" fails. -/
theorem salvar_exame_counterexample :
    (salvar_exame [] true (some "admin@local") (some "E1") (some 40)
        (some "RX") (some "Raio-X - Torax") (some "Dr. X")
        (.dgood "2024-01-01T10:00:00") [⟨1, .qnone⟩]).1 = true ∧
    claimC4cond (some "E1") (some 40) (some "RX") (some "Raio-X - Torax")
        (some "Dr. X") (.dgood "2024-01-01T10:00:00") [⟨1, .qnone⟩] = false := by
  decide

theorem vti_isNone (v : Option String) :
    (validate_text_input v).isNone = (pystrip (v.getD "") == "") := by
  simp only [validate_text_input]
  by_cases h : pystrip (v.getD "") = "" <;> simp [h]

theorem vti_getD (v : Option String) :
    (validate_text_input v).getD "" = pystrip (v.getD "") := by
  simp only [validate_text_input]
  by_cases h : pystrip (v.getD "") = "" <;> simp [h]

theorem vmod_err (v : Option String) :
    (match validate_text_input v with
      | none => true
      | some m => ! MODALIDADES.contains m)
    = ! MODALIDADES.contains (pystrip (v.getD "")) := by
  simp only [validate_text_input]
  by_cases h : pystrip (v.getD "") = ""
  · rw [if_pos h, h]
    decide
  · rw [if_neg h]

theorem vpi_isNone (idade : Option Int) :
    (validate_positive_int idade 0 120).isNone
    = ! (match idade with
        | some n => decide (0 ≤ n) && decide (n ≤ 120)
        | none => false) := by
  cases idade with
  | none => rfl
  | some n =>
      simp only [validate_positive_int]
      by_cases h1 : n < 0
      · rw [if_pos h1]
        have h0 : decide (0 ≤ n) = false := by simp; omega
        simp [h0]
      · rw [if_neg h1]
        by_cases h2 : 120 < n
        · rw [if_pos h2]
          have h0 : decide (0 ≤ n) = true := by simp; omega
          have h120 : decide (n ≤ 120) = false := by simp; omega
          simp [h0, h120]
        · rw [if_neg h2]
          have h0 : decide (0 ≤ n) = true := by simp; omega
          have h120 : decide (n ≤ 120) = true := by simp; omega
          simp [h0, h120]

theorem qty_any_not_all (mats : List UsedMat) :
    (mats.any fun it => (validate_positive_float it.quantidade).isNone)
    = ! (mats.all fun it => (validate_positive_float it.quantidade).isSome) := by
  induction mats with
  | nil => simp
  | cons m r ih =>
      simp only [List.any_cons, List.all_cons, ih]
      cases validate_positive_float m.quantidade <;> simp

/-- The code condition is the negation of the collected-error test of
`salvar_exame` (in the parseable-date case). -/
theorem codeC4cond_eq_not_errs (exam_id : Option String) (idade : Option Int)
    (modalidade exame_txt medico : Option String) (iso : String)
    (mats : List UsedMat) :
    codeC4cond exam_id idade modalidade exame_txt medico (.dgood iso) mats
    = !((validate_text_input exam_id).isNone ||
        (validate_positive_int idade 0 120).isNone ||
        (match validate_text_input modalidade with
          | none => true
          | some m => ! MODALIDADES.contains m) ||
        (validate_text_input exame_txt).isNone ||
        (validate_text_input medico).isNone || false ||
        mats.any fun it => (validate_positive_float it.quantidade).isNone) := by
  unfold codeC4cond
  rw [vti_isNone exam_id, vpi_isNone idade, vmod_err modalidade,
    vti_isNone exame_txt, vti_isNone medico, qty_any_not_all mats]
  simp only [bne]
  generalize (pystrip (exam_id.getD "") == "") = A
  generalize (pystrip (exame_txt.getD "") == "") = B
  generalize (pystrip (medico.getD "") == "") = C
  generalize MODALIDADES.contains (pystrip (modalidade.getD "")) = D
  generalize (match idade with
    | some n => decide (0 ≤ n) && decide (n ≤ 120)
    | none => false) = E
  generalize (mats.all fun it => (validate_positive_float it.quantidade).isSome) = F
  revert A B C D E F
  decide

/-- C4 (amended): `salvar_exame` persists a new exam record iff the session
is logged in and the code\x27s validity condition holds (the claim\x27s condition,
with a `None` or blank quantity additionally accepted as `0.0`); on any
failure the exams file is left entirely unchanged, and on success exactly
the built record is appended via `add_exam`. -/
theorem salvar_exame_gate (file : List Dict) (logged_in : Bool)
    (ue : Option String) (exam_id : Option String) (idade : Option Int)
    (modalidade exame_txt medico : Option String)
    (data_dt : DTIn) (mats : List UsedMat) :
    ((salvar_exame file logged_in ue exam_id idade modalidade exame_txt medico
        data_dt mats).1 = true ↔
      logged_in = true ∧
        codeC4cond exam_id idade modalidade exame_txt medico data_dt mats = true) ∧
    ((salvar_exame file logged_in ue exam_id idade modalidade exame_txt medico
        data_dt mats).1 = false →
      (salvar_exame file logged_in ue exam_id idade modalidade exame_txt medico
        data_dt mats).2 = file) ∧
    (∀ iso : String,
      (salvar_exame file logged_in ue exam_id idade modalidade exame_txt medico
        data_dt mats).1 = true → data_dt = .dgood iso →
      (salvar_exame file logged_in ue exam_id idade modalidade exame_txt medico
        data_dt mats).2
        = (add_exam file (examRec ue (pystrip (exam_id.getD ""))
            ((validate_positive_int idade 0 120).getD 0)
            (pystrip (modalidade.getD "")) (pystrip (exame_txt.getD ""))
            (pystrip (medico.getD "")) iso mats)).1) := by
  cases logged_in with
  | false => simp [salvar_exame]
  | true =>
      cases data_dt with
      | dnone =>
          have hcondtrue : ((validate_text_input exam_id).isNone ||
              (validate_positive_int idade 0 120).isNone ||
              (match validate_text_input modalidade with
                | none => true
                | some m => ! MODALIDADES.contains m) ||
              (validate_text_input exame_txt).isNone ||
              (validate_text_input medico).isNone || true ||
              mats.any fun it => (validate_positive_float it.quantidade).isNone) = true := by
            simp
          have hret : salvar_exame file true ue exam_id idade modalidade exame_txt medico
              .dnone mats = (false, file) := by
            simp only [salvar_exame]
            rw [if_pos hcondtrue]
            rfl
          rw [hret]
          simp [codeC4cond]
      | dbad s =>
          have hret : salvar_exame file true ue exam_id idade modalidade exame_txt medico
              (.dbad s) mats = (false, file) := by
            simp only [salvar_exame]
            by_cases h : ((validate_text_input exam_id).isNone ||
                (validate_positive_int idade 0 120).isNone ||
                (match validate_text_input modalidade with
                  | none => true
                  | some m => ! MODALIDADES.contains m) ||
                (validate_text_input exame_txt).isNone ||
                (validate_text_input medico).isNone || false ||
                mats.any fun it => (validate_positive_float it.quantidade).isNone) = true
            · rw [if_pos h]
              rfl
            · rw [if_neg h]
              rfl
          rw [hret]
          simp [codeC4cond]
      | dgood iso₀ =>
          by_cases h : ((validate_text_input exam_id).isNone ||
              (validate_positive_int idade 0 120).isNone ||
              (match validate_text_input modalidade with
                | none => true
                | some m => ! MODALIDADES.contains m) ||
              (validate_text_input exame_txt).isNone ||
              (validate_text_input medico).isNone || false ||
              mats.any fun it => (validate_positive_float it.quantidade).isNone) = true
          · have hret : salvar_exame file true ue exam_id idade modalidade exame_txt
                medico (.dgood iso₀) mats = (false, file) := by
              simp only [salvar_exame]
              rw [if_pos h]
              rfl
            have hcond : codeC4cond exam_id idade modalidade exame_txt medico
                (.dgood iso₀) mats = false := by
              rw [codeC4cond_eq_not_errs, h]
              rfl
            rw [hret]
            simp [hcond]
          · have hret : salvar_exame file true ue exam_id idade modalidade exame_txt
                medico (.dgood iso₀) mats
                = (true, (add_exam file (examRec ue
                    ((validate_text_input exam_id).getD "")
                    ((validate_positive_int idade 0 120).getD 0)
                    ((validate_text_input modalidade).getD "")
                    ((validate_text_input exame_txt).getD "")
                    ((validate_text_input medico).getD "") iso₀ mats)).1) := by
              simp only [salvar_exame]
              rw [if_neg h]
              rfl
            have hcond : codeC4cond exam_id idade modalidade exame_txt medico
                (.dgood iso₀) mats = true := by
              rw [codeC4cond_eq_not_errs]
              simp only [Bool.not_eq_true] at h
              rw [h]
              rfl
            rw [hret]
            refine ⟨by simp [hcond], by simp, ?_⟩
            intro iso _ hiso
            injection hiso with hiso
            subst hiso
            rw [vti_getD, vti_getD, vti_getD, vti_getD]

/-- Witness for C4 at a fully valid input: the record is persisted and the
file is extended by `add_exam`. -/
theorem salvar_exame_gate_witness :
    (salvar_exame [] true (some "admin@local") (some " E2 ") (some 33)
        (some "CT") (some "Tomografia - Cranio") (some "Dra. Y")
        (.dgood "2024-02-02T09:30:00") [⟨1, .qnum 10⟩]).1 = true ∧
    (salvar_exame [] true (some "admin@local") (some " E2 ") (some 33)
        (some "CT") (some "Tomografia - Cranio") (some "Dra. Y")
        (.dgood "2024-02-02T09:30:00") [⟨1, .qnum 10⟩]).2
      = (add_exam [] (examRec (some "admin@local") "E2" 33 "CT"
          "Tomografia - Cranio" "Dra. Y" "2024-02-02T09:30:00" [⟨1, .qnum 10⟩])).1 := by
  have h := salvar_exame_gate [] true (some "admin@local") (some " E2 ") (some 33)
    (some "CT") (some "Tomografia - Cranio") (some "Dra. Y")
    (.dgood "2024-02-02T09:30:00") [⟨1, .qnum 10⟩]
  have ht : (salvar_exame [] true (some "admin@local") (some " E2 ") (some 33)
      (some "CT") (some "Tomografia - Cranio") (some "Dra. Y")
      (.dgood "2024-02-02T09:30:00") [⟨1, .qnum 10⟩]).1 = true :=
    h.1.mpr ⟨rfl, by decide⟩
  refine ⟨ht, ?_⟩
  have h2 := h.2.2 "2024-02-02T09:30:00" ht rfl
  rw [h2]
  have e1 : pystrip ((some " E2 ").getD "") = "E2" := by decide
  have e2 : (validate_positive_int (some 33) 0 120).getD 0 = 33 := by decide
  have e3 : pystrip ((some "CT").getD "") = "CT" := by decide
  have e4 : pystrip ((some "Tomografia - Cranio").getD "") = "Tomografia - Cranio" := by decide
  have e5 : pystrip ((some "Dra. Y").getD "") = "Dra. Y" := by decide
  rw [e1, e2, e3, e4, e5]

/-! ## C5: audit logging of exam create / update / delete -/

/-- The audit entry `log_action` builds (its id is
`max([l.get("id",0) for l in logs] or [0]) + 1`). -/
def logEntryOf (logs : List Dict) (ue : Option String) (action : String)
    (eid : ℚ) (before after : JVal) (now : String) : Dict :=
  [("id", .jnum (pymax0 (logs.map idD0) + 1)), ("ts", .jstr now),
   ("user", .jstr (ue.getD "desconhecido")),
   ("action", .jstr action), ("entity", .jstr "exam"),
   ("entity_id", .jnum eid), ("before", before), ("after", after)]

theorem log_action_eq (logs : List Dict) (ue : Option String) (action : String)
    (eid : ℚ) (before after : JVal) (now : String) :
    log_action logs ue action "exam" eid before after now
      = (logs ++ [logEntryOf logs ue action eid before after now],
         pymax0 (logs.map idD0) + 1) := rfl

/-- `rows = sorted(list_exams(), key=lambda x: x.get("id",0), reverse=True)`. -/
def sortByIdDesc (data : List Dict) : List Dict :=
  data.mergeSort (fun a b => idD0 b ≤ idD0 a)

/-- The success path of `salvar_exame` after validation: `add_exam(rec)`
followed by `log_action(user, "create", "exam", new_id, before=None,
after=rec)` — `add_exam` mutates `rec` in place, so the logged `after`
carries the assigned id. -/
def salvarCreateFlow (exams logs : List Dict) (rec : Dict) (ue : Option String)
    (now : String) : List Dict × List Dict :=
  let r := add_exam exams rec
  let rec2 := dupdate rec [("id", .jnum r.2)]
  (r.1, (log_action logs ue "create" "exam" r.2 .jnull (.jobj rec2) now).1)

/-- The persistence part of `save_edit` (after validation): look up `before`,
run `update_exam`, and on success log `update` with `after` looked up in the
id-descending sorted rows. -/
def saveEditFlow (exams logs : List Dict) (i : ℚ) (fields : Dict)
    (ue : Option String) (now : String) : List Dict × List Dict :=
  let before := match exams.find? (idMatches i) with
    | some e => JVal.jobj e
    | none => JVal.jnull
  let r := update_exam exams i fields
  let rows := sortByIdDesc r.file
  if r.ret then
    let after := match rows.find? (idMatches i) with
      | some e => JVal.jobj e
      | none => JVal.jnull
    (r.file, (log_action logs ue "update" "exam" i before after now).1)
  else (r.file, logs)

/-- `confirm_delete`: look up `before`, run `delete_exam`, and on success log
`delete` with `after=None`. -/
def confirmDeleteFlow (exams logs : List Dict) (i : ℚ) (ue : Option String)
    (now : String) : List Dict × List Dict :=
  let before := match exams.find? (idMatches i) with
    | some e => JVal.jobj e
    | none => JVal.jnull
  let r := delete_exam exams i
  if r.ret then
    (r.file, (log_action logs ue "delete" "exam" i before .jnull now).1)
  else (r.file, logs)

theorem idMatches_iff (i : ℚ) (e : Dict) :
    idMatches i e = true ↔ recId e = some (.jnum i) := by
  simp [idMatches]

theorem find?_eq_head?_filter (p : α → Bool) :
    ∀ l : List α, l.find? p = (l.filter p).head?
  | [] => rfl
  | a :: r => by
      by_cases h : p a = true
      · rw [List.find?_cons_of_pos _ h, List.filter_cons_of_pos h]
        rfl
      · have h' : ¬ p a = true := h
        rw [List.find?_cons_of_neg _ h', List.filter_cons_of_neg h',
          find?_eq_head?_filter p r]

theorem find?_of_perm_filter_singleton (p : α → Bool) (l l' : List α) (a : α)
    (hperm : l'.Perm l) (hfil : l.filter p = [a]) : l'.find? p = some a := by
  have h1 : (l'.filter p).Perm (l.filter p) := hperm.filter p
  rw [hfil] at h1
  rw [find?_eq_head?_filter, List.perm_singleton.mp h1]
  rfl

/-- With pairwise-distinct record ids, updating the first (hence only)
record matching `i` leaves exactly its updated version matching `i`. -/
theorem updateFirst_filter (i : ℚ) (fields : Dict)
    (hfld : dget fields "id" = none) :
    ∀ (data : List Dict) (e : Dict), data.find? (idMatches i) = some e →
      (data.map recId).Nodup →
      (updateFirst i fields data).2 = true ∧
      (updateFirst i fields data).1.filter (idMatches i) = [dupdate e fields] ∧
      data.filter (idMatches i) = [e]
  | [], e, hfind, _ => by simp [List.find?] at hfind
  | a :: rest, e, hfind, hnodup => by
      by_cases ha : idMatches i a = true
      · have hae : e = a := by
          rw [List.find?, ha] at hfind
          exact (Option.some_inj.mp hfind).symm
        subst hae
        have hrid : recId e = some (.jnum i) := (idMatches_iff i e).mp ha
        have hrest : ∀ x ∈ rest, ¬ idMatches i x = true := by
          intro x hx hmx
          have hxid : recId x = some (.jnum i) := (idMatches_iff i x).mp hmx
          have hne : recId e ∉ rest.map recId :=
            (List.nodup_cons.mp (by simpa using hnodup)).1
          refine hne ?_
          rw [hrid, ← hxid]
          exact List.mem_map_of_mem recId hx
        have hfil_rest : rest.filter (idMatches i) = [] :=
          List.filter_eq_nil_iff.mpr hrest
        have hupd_match : idMatches i (dupdate e fields) = true := by
          rw [idMatches_iff, recId_dupdate_of_noId e fields hfld]
          exact hrid
        refine ⟨by simp [updateFirst, ha], ?_, ?_⟩
        · simp [updateFirst, ha, List.filter_cons, hupd_match, hfil_rest]
        · simp [List.filter_cons, ha, hfil_rest]
      · have hstep : updateFirst i fields (a :: rest)
            = (a :: (updateFirst i fields rest).1, (updateFirst i fields rest).2) := by
          simp [updateFirst, ha]
        have hfind' : rest.find? (idMatches i) = some e := by
          rw [List.find?] at hfind
          simp only [Bool.not_eq_true] at ha
          rwa [ha] at hfind
        have hnodup' : (rest.map recId).Nodup := by
          simpa [List.nodup_cons] using (List.nodup_cons.mp (by simpa using hnodup)).2
        obtain ⟨h1, h2, h3⟩ := updateFirst_filter i fields hfld rest e hfind' hnodup'
        simp only [Bool.not_eq_true] at ha
        exact ⟨by rw [hstep]; exact h1,
               by rw [hstep]; simp [List.filter_cons, ha, h2],
               by simp [List.filter_cons, ha, h3]⟩

/-- `(l.max?).getD 0`-style relation between Python's `max(l or [0])` and
`List.max?`. -/
theorem pymax0_eq_max? (l : List ℚ) (hl : l ≠ []) : l.max? = some (pymax0 l) := by
  cases l with
  | nil => exact absurd rfl hl
  | cons a r => rfl

/-- C5: every successful create, update, or delete of an exam appends
exactly one audit entry via `log_action` (none is appended on a failed
update or delete); the entry's id is `1 +` the maximum existing log id (1 on
an empty log), its action is respectively `create` / `update` / `delete`,
its entity is `exam`, its `entity_id` is the affected record's id, and its
`before` / `after` fields hold the record's state before and after the
operation with `None` on the absent side; appending leaves every
pre-existing log entry in place. -/
theorem audit_log_flows (exams logs : List Dict) (rec fields : Dict) (i : ℚ)
    (ue : Option String) (now action : String) (b c : JVal)
    (hnodup : (exams.map recId).Nodup) (hfld : dget fields "id" = none) :
    ((salvarCreateFlow exams logs rec ue now).2
      = logs ++ [logEntryOf logs ue "create" (add_exam exams rec).2 .jnull
          (.jobj (dupdate rec [("id", .jnum (add_exam exams rec).2)])) now]) ∧
    (∀ e : Dict, exams.find? (idMatches i) = some e →
      (saveEditFlow exams logs i fields ue now).2
        = logs ++ [logEntryOf logs ue "update" i (.jobj e)
            (.jobj (dupdate e fields)) now]) ∧
    (exams.find? (idMatches i) = none →
      (saveEditFlow exams logs i fields ue now).2 = logs) ∧
    (∀ e : Dict, exams.find? (idMatches i) = some e →
      (confirmDeleteFlow exams logs i ue now).2
        = logs ++ [logEntryOf logs ue "delete" i (.jobj e) .jnull now]) ∧
    (exams.find? (idMatches i) = none →
      (confirmDeleteFlow exams logs i ue now).2 = logs) ∧
    (logs = [] →
      dget (logEntryOf logs ue action i b c now) "id" = some (.jnum 1)) ∧
    (∀ m : ℚ, (logs.map idD0).max? = some m →
      dget (logEntryOf logs ue action i b c now) "id" = some (.jnum (m + 1))) := by
  refine ⟨rfl, ?_, ?_, ?_, ?_, ?_, ?_⟩
  · intro e hfind
    obtain ⟨hret, hfil, -⟩ := updateFirst_filter i fields hfld exams e hfind hnodup
    have hafter : (sortByIdDesc (updateFirst i fields exams).1).find? (idMatches i)
        = some (dupdate e fields) :=
      find?_of_perm_filter_singleton _ _ _ _ (List.mergeSort_perm _ _) hfil
    simp only [saveEditFlow, hfind, update_exam, hafter, hret]
    simp [log_action_eq]
  · intro hfind
    have hnone : ¬ ∃ e ∈ exams, idMatches i e = true := by
      rintro ⟨e, he, hme⟩
      have := List.find?_eq_none.mp hfind e he
      simp [hme] at this
    have hret : (updateFirst i fields exams).2 = false := by
      by_cases h : (updateFirst i fields exams).2 = true
      · exact absurd ((updateFirst_spec i fields exams).1.mp h) hnone
      · simpa using h
    simp only [saveEditFlow, hfind, update_exam, hret]
    simp
  · intro e hfind
    have hmem : ∃ x ∈ exams, idMatches i x = true := by
      have := List.find?_some hfind
      exact ⟨e, List.mem_of_find?_eq_some hfind, this⟩
    have hret : (delete_exam exams i).ret = true := (delete_exam_spec exams i).1.mpr hmem
    simp only [confirmDeleteFlow, hfind, hret]
    simp [log_action_eq]
  · intro hfind
    have hnone : ¬ ∃ e ∈ exams, idMatches i e = true := by
      rintro ⟨e, he, hme⟩
      have := List.find?_eq_none.mp hfind e he
      simp [hme] at this
    have hret : (delete_exam exams i).ret = false := by
      by_cases h : (delete_exam exams i).ret = true
      · exact absurd ((delete_exam_spec exams i).1.mp h) hnone
      · simpa using h
    simp only [confirmDeleteFlow, hfind, hret]
    simp
  · intro hl
    subst hl
    simp [logEntryOf, dget, List.find?, pymax0]
  · intro m hm
    have : logs ≠ [] := by
      intro h
      subst h
      simp at hm
    rw [pymax0_eq_max? (logs.map idD0) (by simpa using this)] at hm
    have hm' : pymax0 (logs.map idD0) = m := by
      exact Option.some_inj.mp hm
    simp [logEntryOf, dget, List.find?, hm']

/-- Witness for C5: a two-exam file with one log entry; updating exam 2 and
deleting exam 1 each append exactly one entry with the right fields. -/
theorem audit_log_flows_witness :
    (saveEditFlow
        [[("id", JVal.jnum 1), ("x", JVal.jstr "a")], [("id", JVal.jnum 2), ("x", JVal.jstr "b")]]
        [[("id", JVal.jnum 4)]] 2 [("x", JVal.jstr "c")] (some "u@x") "T").2
      = [[("id", JVal.jnum 4)]]
        ++ [logEntryOf [[("id", JVal.jnum 4)]] (some "u@x") "update" 2
            (.jobj [("id", JVal.jnum 2), ("x", JVal.jstr "b")])
            (.jobj (dupdate [("id", JVal.jnum 2), ("x", JVal.jstr "b")] [("x", JVal.jstr "c")])) "T"] ∧
    (confirmDeleteFlow
        [[("id", JVal.jnum 1), ("x", JVal.jstr "a")], [("id", JVal.jnum 2), ("x", JVal.jstr "b")]]
        [[("id", JVal.jnum 4)]] 1 (some "u@x") "T").2
      = [[("id", JVal.jnum 4)]]
        ++ [logEntryOf [[("id", JVal.jnum 4)]] (some "u@x") "delete" 1
            (.jobj [("id", JVal.jnum 1), ("x", JVal.jstr "a")]) .jnull "T"] := by
  have h := audit_log_flows
    [[("id", JVal.jnum 1), ("x", JVal.jstr "a")], [("id", JVal.jnum 2), ("x", JVal.jstr "b")]]
    [[("id", JVal.jnum 4)]] [] [("x", JVal.jstr "c")] 2 (some "u@x") "T" "update"
    JVal.jnull JVal.jnull (by decide) (by decide)
  have h1 := audit_log_flows
    [[("id", JVal.jnum 1), ("x", JVal.jstr "a")], [("id", JVal.jnum 2), ("x", JVal.jstr "b")]]
    [[("id", JVal.jnum 4)]] [] [("x", JVal.jstr "c")] 1 (some "u@x") "T" "delete"
    JVal.jnull JVal.jnull (by decide) (by decide)
  exact ⟨h.2.1 [("id", JVal.jnum 2), ("x", JVal.jstr "b")] (by decide),
         h1.2.2.2.1 [("id", JVal.jnum 1), ("x", JVal.jstr "a")] (by decide)⟩

/-! ## C6: CSV export

`export_csv` runs on the pandas DataFrame of the stored exams.  The model
keeps one structure per row with `data_hora` already put through
`pd.to_datetime(errors="coerce")` (`none` = `NaT`, otherwise a UTC
timestamp in microseconds); `strftime` display formatting of the kept
timestamps is not modelled.  `strptime("%d/%m/%Y")` is modelled by digit
parsing with range checks on day and month (calendar-exact day-of-month
validation does not affect the filtering logic). -/

/-- One row of the materials catalog, as used by the export. -/
structure Material where
  mid : ℚ
  nome : String
  unidade : String
  deriving DecidableEq, Repr

/-- One entry of an exam's `materiais_usados` list; `qty` is the displayed
form of the quantity. -/
structure UsedEntry where
  material_id : ℚ
  qty : String
  deriving DecidableEq, Repr

/-- One exam as a DataFrame row (`mats = none` models a `materiais_usados`
value that is not a list, which formats as the empty string). -/
structure ExamRow where
  rid : ℚ
  exam_id : String
  idade : ℚ
  modalidade : String
  exame : String
  medico : String
  data_hora : Option Int
  user_email : String
  mats : Option (List UsedEntry)
  deriving DecidableEq, Repr

/-- `materials_lookup = {row['id']: row for ...}`: a dict built by
iteration, so a later row with the same id overwrites an earlier one. -/
def materials_lookup (mats : List Material) (i : ℚ) : Option Material :=
  mats.reverse.find? (fun m => m.mid == i)

/-- `format_used_materials` from `export_csv`: list the used materials
found in the catalog as `nome (qty unidade)`, comma-joined; a non-list
value gives the empty string. -/
def format_used_materials (mats : List Material) : Option (List UsedEntry) → String
  | none => ""
  | some l => ", ".intercalate (l.filterMap (fun it =>
      (materials_lookup mats it.material_id).map
        (fun mi => mi.nome ++ " (" ++ it.qty ++ mi.unidade ++ ")")))

/-- A parsed `DD/MM/YYYY` date. -/
structure BRDate where
  d : ℕ
  m : ℕ
  y : ℕ
  deriving DecidableEq, Repr

/-- Parse a non-empty all-digit character list as a natural number. -/
def parseNat (cs : List Char) : Option ℕ :=
  if cs = [] then none
  else cs.foldl (fun acc c => match acc with
    | none => none
    | some n => if c.isDigit then some (n * 10 + (c.toNat - 48)) else none) (some 0)

/-- `parse_br_date`: `datetime.strptime(dstr, "%d/%m/%Y").date()`. -/
def parse_br_date (s : String) : Option BRDate :=
  match splitAll '/' s.toList with
  | [ds, ms, ys] =>
      match parseNat ds, parseNat ms, parseNat ys with
      | some d, some m, some y =>
          if 1 ≤ d ∧ d ≤ 31 ∧ 1 ≤ m ∧ m ≤ 12 then some ⟨d, m, y⟩ else none
      | _, _, _ => none
  | _ => none

/-- `parse_periodo_str`: split on `"a"` into exactly two parts, strip and
parse both; any failure yields `(None, None)`. -/
def parse_periodo_str (s : String) : Option (BRDate × BRDate) :=
  if s = "" then none
  else match splitAll 'a' s.toList with
    | [a, b] =>
        match parse_br_date (pystrip ⟨a⟩), parse_br_date (pystrip ⟨b⟩) with
        | some da, some db => some (da, db)
        | _, _ => none
    | _ => none

/-- The start bound `export_csv` derives from the `start` query parameter:
`parse_periodo_str(f"{start_str} a {start_str}")[0]`. -/
def startFilterDT (start_str : String) : Option BRDate :=
  (parse_periodo_str (start_str ++ " a " ++ start_str)).map (·.1)

/-- The end bound derived from the `end` query parameter. -/
def endFilterDT (end_str : String) : Option BRDate :=
  (parse_periodo_str (end_str ++ " a " ++ end_str)).map (·.2)

/-- Microseconds per day. -/
def microsPerDay : Int := 86400000000

/-- `datetime.combine(d, datetime.min.time())` on the model timeline. -/
def dayStartTS (dt : BRDate) : Int :=
  ((dt.y * 372 + dt.m * 31 + dt.d : ℕ) : Int) * microsPerDay

/-- `datetime.combine(d, datetime.max.time())`: the last microsecond of the
day. -/
def dayEndTS (dt : BRDate) : Int := dayStartTS dt + 86399999999

/-- The start-date filter `df[df["data_hora"] >= start_dt]` on one row
(a `NaT` timestamp compares `False`). -/
def startKeep (sd : Option BRDate) (t : Option Int) : Bool :=
  match sd with
  | none => true
  | some d => match t with
    | some ts => dayStartTS d ≤ ts
    | none => false

/-- The end-date filter `df[df["data_hora"] <= end_dt]` on one row. -/
def endKeep (ed : Option BRDate) (t : Option Int) : Bool :=
  match ed with
  | none => true
  | some d => match t with
    | some ts => ts ≤ dayEndTS d
    | none => false

/-- One row of the produced CSV. -/
structure CsvRow where
  rid : ℚ
  exam_id : String
  idade : ℚ
  modalidade : String
  exame : String
  medico : String
  data_hora : Option Int
  user_email : String
  materiais : String
  deriving DecidableEq, Repr

/-- The row `export_csv` writes for one kept exam. -/
def mkRow (mats : List Material) (e : ExamRow) : CsvRow :=
  { rid := e.rid, exam_id := e.exam_id, idade := e.idade,
    modalidade := e.modalidade, exame := e.exame, medico := e.medico,
    data_hora := e.data_hora, user_email := e.user_email,
    materiais := format_used_materials mats e.mats }

/-- The column headers of the produced CSV, after the final selection and
the rename of `materiais_usados_str` to `Materiais Usados`. -/
def csvCols : List String :=
  ["id", "exam_id", "idade", "modalidade", "exame", "medico", "data_hora",
   "user_email", "Materiais Usados"]

/-- `export_csv` from `app.py`: derive the two optional day bounds, apply
the start filter and then the end filter to the rows, and emit one CSV row
per kept exam. -/
def export_csv (exams : List ExamRow) (mats : List Material)
    (start_str end_str : Option String) : List String × List CsvRow :=
  let sd := match start_str with
    | none => none
    | some s => startFilterDT s
  let ed := match end_str with
    | none => none
    | some s => endFilterDT s
  let rows1 := exams.filter (fun e => startKeep sd e.data_hora)
  let rows2 := rows1.filter (fun e => endKeep ed e.data_hora)
  (csvCols, rows2.map (mkRow mats))

theorem filterMap_lookup_eq_map_filter (mats : List Material) :
    ∀ l : List UsedEntry,
      l.filterMap (fun it => (materials_lookup mats it.material_id).map
        (fun mi => mi.nome ++ " (" ++ it.qty ++ mi.unidade ++ ")"))
      = (l.filter (fun it => (materials_lookup mats it.material_id).isSome)).map
          (fun it => match materials_lookup mats it.material_id with
            | some mi => mi.nome ++ " (" ++ it.qty ++ mi.unidade ++ ")"
            | none => "")
  | [] => rfl
  | it :: r => by
      cases hm : materials_lookup mats it.material_id with
      | none =>
          simp only [List.filterMap_cons, List.filter_cons, hm]
          simpa using filterMap_lookup_eq_map_filter mats r
      | some mi =>
          simp only [List.filterMap_cons, List.filter_cons, hm]
          simp [filterMap_lookup_eq_map_filter mats r, hm]

/-- C6: the CSV produced by `export_csv` has exactly the nine claimed
columns; its rows are exactly the exams whose `data_hora` lies on or after
00:00:00 of the start day (when `start` is given and parseable) and on or
before the last microsecond of the end day (when `end` is given and
parseable), in stored order; with no filters given every exam appears; and
each row's `Materiais Usados` cell lists exactly the used materials whose
`material_id` exists in the materials catalog. -/
theorem export_csv_spec (exams : List ExamRow) (mats : List Material)
    (start_str end_str : Option String) :
    ((export_csv exams mats start_str end_str).1 = csvCols) ∧
    ((export_csv exams mats start_str end_str).2
      = (exams.filter (fun e =>
          startKeep (match start_str with
            | none => none
            | some s => startFilterDT s) e.data_hora &&
          endKeep (match end_str with
            | none => none
            | some s => endFilterDT s) e.data_hora)).map (mkRow mats)) ∧
    (start_str = none → end_str = none →
      (export_csv exams mats start_str end_str).2 = exams.map (mkRow mats)) ∧
    (∀ e : ExamRow, ∀ l : List UsedEntry, e.mats = some l →
      (mkRow mats e).materiais
        = ", ".intercalate
            ((l.filter (fun it => (materials_lookup mats it.material_id).isSome)).map
              (fun it => match materials_lookup mats it.material_id with
                | some mi => mi.nome ++ " (" ++ it.qty ++ mi.unidade ++ ")"
                | none => ""))) ∧
    (∀ e : ExamRow, e.mats = none → (mkRow mats e).materiais = "") := by
  refine ⟨rfl, ?_, ?_, ?_, ?_⟩
  · simp only [export_csv, List.filter_filter]
    congr 1
    apply List.filter_congr
    intro a _
    rw [Bool.and_comm]
  · intro hs he
    subst hs
    subst he
    simp [export_csv, startKeep, endKeep]
  · intro e l hl
    simp only [mkRow, format_used_materials, hl]
    rw [filterMap_lookup_eq_map_filter]
  · intro e hl
    simp [mkRow, format_used_materials, hl]

/-- Witness for C6: with no date filters, a concrete two-exam file exports
one row per exam, and a row whose used material is absent from the catalog
gets it dropped from the `Materiais Usados` cell. -/
theorem export_csv_spec_witness :
    (export_csv
        [⟨1, "E1", 40, "RX", "X", "M", some 100, "u", some [⟨7, "2.0"⟩]⟩,
         ⟨2, "E2", 50, "CT", "Y", "N", none, "u", none⟩]
        [⟨1, "Gadolinio", "mL",⟩] none none).2
      = [mkRow [⟨1, "Gadolinio", "mL"⟩]
            ⟨1, "E1", 40, "RX", "X", "M", some 100, "u", some [⟨7, "2.0"⟩]⟩,
         mkRow [⟨1, "Gadolinio", "mL"⟩]
            ⟨2, "E2", 50, "CT", "Y", "N", none, "u", none⟩] ∧
    (mkRow [⟨1, "Gadolinio", "mL"⟩]
        ⟨2, "E2", 50, "CT", "Y", "N", none, "u", none⟩).materiais = "" := by
  have h := export_csv_spec
    [⟨1, "E1", 40, "RX", "X", "M", some 100, "u", some [⟨7, "2.0"⟩]⟩,
     ⟨2, "E2", 50, "CT", "Y", "N", none, "u", none⟩]
    [⟨1, "Gadolinio", "mL"⟩] none none
  exact ⟨h.2.2.1 rfl rfl,
         h.2.2.2.2 ⟨2, "E2", 50, "CT", "Y", "N", none, "u", none⟩ rfl⟩

end Radiolog
